import Mathlib

/-!
# jetstream `nats` command line client: request/reply collection and context commands

Shallow embedding of

* `src/nats/pub_command.go`: `pubCmd`, `prepareMsg`, `publish` (with the
  multi-reply collection loop);
* `src/nats/context_command.go`: `showCommand`, `createCommand`,
  `removeCommand`, `selectCommand`;
* the `natscontext` package used by the context commands; its source is not part of
  `src/` (only its test is), so its functions are modelled from the specification.

Go functions that talk to the outside (the NATS connection, the terminal, the
prompt library) are embedded as functions that read the answers of the outside
from an explicit record and write every call they make to an explicit list.
-/

namespace Jetstream

/-! ## Shared data -/

/-- Go `error` values. `errorf` is an error built by `fmt.Errorf` inside the command
files; the other constructors are errors handed back by a collaborator. -/
inductive Err where
  | errorf (msg : String)
  | invalidName (name : String)
  | unknownContext (name : String)
  | fs (cause : String)
  | client (cause : String)
deriving DecidableEq, Repr

/-- The text of an error, as `%s` prints it. -/
def Err.Error : Err → String
  | .errorf msg => msg
  | .invalidName name => "invalid context name " ++ name
  | .unknownContext name => "unknown context " ++ name
  | .fs cause => cause
  | .client cause => cause

/-- The value of a Go function: it returned (with `nil` or an error), or it is still
waiting in a `select` for which no further event arrives. -/
inductive Outcome where
  | returned (err : Option Err)
  | blocked
deriving DecidableEq, Repr

/-! ## `pub_command.go` -/

/-- The fields of `nats.Msg` that the command uses. -/
structure Msg where
  Subject : String
  Reply : String
  Data : String
  Header : List (String × List String)
deriving DecidableEq, Repr

/-- Embedding of `type pubCmd struct`. `respCount` is a Go `uint`. -/
structure pubCmd where
  subject : String
  body : String
  req : Bool
  replyTo : String
  respCount : Nat
  raw : Bool
  hdrs : List String
deriving DecidableEq, Repr

/-- Number of values of the Go type `uint` (64-bit platforms). -/
def uintSize : Nat := 2 ^ 64

/-- What one iteration of the `select` in `publish` observes: the timer channel `t.C`
fired, or a message was received from `msgChan`. -/
inductive Event where
  | reply (m : Msg)
  | deadline
deriving DecidableEq, Repr

/-- Every call `publish` makes to a collaborator, and its deferred calls. -/
inductive Effect where
  | logReadingPayload
  | logSendingRequest (subject : String)
  | requestMsg (m : Msg)
  | printResponse (m : Msg)
  | chanSubscribe (subject : String) (capacity : Nat)
  | publishMsg (m : Msg)
  | drain
  | closeChan
  | connClose
  | flush
  | logPublished (bytes : Nat) (subject : String)
deriving DecidableEq, Repr

/-- The answers of the outside world to the calls of `publish`. -/
structure NatsWorld where
  /-- Result of `newNatsConn(servers, natsOpts()...)`: `none` is a connection. -/
  connect : Option Err
  /-- Result of `terminal.IsTerminal(int(os.Stdout.Fd()))`. -/
  isTerminal : Bool
  /-- Result of `ioutil.ReadAll(os.Stdin)`. -/
  stdin : Except Err String
  /-- The function `parseStringsToHeader(c.hdrs, msg)`, declared in another file: the
  message with its headers set, and the error. -/
  parseStringsToHeader : List String → Msg → Msg × Option Err
  /-- Result of `nc.RequestMsg(msg, timeout)`. -/
  requestMsg : Msg → Except Err Msg
  /-- Result of `nc.NewRespInbox()`. -/
  newRespInbox : String
  /-- Error of `nc.ChanSubscribe(msg.Reply, msgChan)`. -/
  chanSubscribe : String → Option Err
  /-- Error of `nc.PublishMsg(msg)`. -/
  publishMsg : Msg → Option Err
  /-- The events the `select` loop observes, in the order it observes them. -/
  events : List Event
  /-- Result of `nc.LastError()`. -/
  lastError : Option Err

/-- Embedding of `pubCmd.prepareMsg`. -/
def prepareMsg (w : NatsWorld) (c : pubCmd) : Msg × Option Err :=
  let msg : Msg := { Subject := c.subject, Reply := c.replyTo, Data := c.body, Header := [] }
  w.parseStringsToHeader c.hdrs msg

/-- Run the deferred calls of a Go function: they run when the function returns, and
not while it is blocked. -/
def runDeferred (deferred : List Effect) : List Effect × Outcome → List Effect × Outcome
  | (es, .returned e) => (es ++ deferred, .returned e)
  | (es, .blocked) => (es, .blocked)

/-- Put the calls made so far in front of the calls of the rest of the function. -/
def after (done : List Effect) (r : List Effect × Outcome) : List Effect × Outcome :=
  (done ++ r.1, r.2)

/-- Embedding of the loop `for { select { case <-t.C: ...; case m := <-msgChan: ... } }`
of `publish` (lines 138 to 149), started with counter `cnt`. -/
def collect (respCount : Nat) : Nat → List Event → List Effect × Outcome
  | _, [] => ([], .blocked)
  | _, .deadline :: _ => ([], .returned none)
  | cnt, .reply m :: rest =>
    if (cnt + 1) % uintSize = respCount then
      ([.printResponse m], .returned none)
    else
      after [.printResponse m] (collect respCount ((cnt + 1) % uintSize) rest)

/-- Embedding of lines 119 to 121 of `publish`: a request without a reply subject gets
a fresh inbox. -/
def withReplyInbox (w : NatsWorld) (msg : Msg) : Msg :=
  if msg.Reply = "" then { msg with Reply := w.newRespInbox } else msg

/-- Embedding of the `else` branch of `publish` (lines 119 to 149): subscribe, publish
the request, collect the replies. -/
def publishMulti (w : NatsWorld) (c : pubCmd) (msg0 : Msg) : List Effect × Outcome :=
  let msg : Msg := withReplyInbox w msg0
  runDeferred [.closeChan] <|
    after [.chanSubscribe msg.Reply c.respCount] <|
      match w.chanSubscribe msg.Reply with
      | some e => ([], .returned (some e))
      | none =>
        runDeferred [.drain] <|
          after [.publishMsg msg] <|
            match w.publishMsg msg with
            | some e => ([], .returned (some e))
            | none => collect c.respCount 0 w.events

/-- Embedding of the `if c.req` branch of `publish` (lines 103 to 152). -/
def publishRequest (w : NatsWorld) (c : pubCmd) : List Effect × Outcome :=
  after (if c.raw then [] else [.logSendingRequest c.subject]) <|
    match prepareMsg w c with
    | (_, some e) => ([], .returned (some e))
    | (msg, none) =>
      if c.respCount = 1 then
        after [.requestMsg msg] <|
          match w.requestMsg msg with
          | .error e => ([], .returned (some e))
          | .ok m => ([.printResponse m], .returned none)
      else
        publishMulti w c msg

/-- Embedding of the plain publish at the end of `publish` (lines 155 to 173). -/
def publishPlain (w : NatsWorld) (c : pubCmd) : List Effect × Outcome :=
  match prepareMsg w c with
  | (_, some e) => ([], .returned (some e))
  | (msg, none) =>
    after [.publishMsg msg] <|
      match w.publishMsg msg with
      | some e => ([], .returned (some e))
      | none =>
        after [.flush] <|
          match w.lastError with
          | some e => ([], .returned (some e))
          | none => ([.logPublished c.body.utf8ByteSize c.subject], .returned none)

/-- Embedding of lines 93 to 100 of `publish`: the payload is read from standard input
when the body argument was left at its default and standard output is a terminal. -/
def readPayload (w : NatsWorld) (c : pubCmd) : List Effect × Except Err pubCmd :=
  if c.body = "!nil!" ∧ w.isTerminal = true then
    match w.stdin with
    | .error e => ([.logReadingPayload], .error e)
    | .ok body => ([.logReadingPayload], .ok { c with body := body })
  else
    ([], .ok c)

/-- Embedding of `pubCmd.publish`. -/
def publish (w : NatsWorld) (c0 : pubCmd) : List Effect × Outcome :=
  match w.connect with
  | some e => ([], .returned (some e))
  | none =>
    runDeferred [.connClose] <|
      after (readPayload w c0).1 <|
        match (readPayload w c0).2 with
        | .error e => ([], .returned (some e))
        | .ok c => if c.req = true then publishRequest w c else publishPlain w c

/-- The state of the temporary reply subscription. -/
inductive SubState where
  | absent
  | active
  | drained
deriving DecidableEq, Repr

/-- The state of the reply subscription after one call: a successful `ChanSubscribe`
makes it active, `Drain` on an active subscription drains it. -/
def SubState.step (w : NatsWorld) (st : SubState) : Effect → SubState
  | .chanSubscribe subject _ => if w.chanSubscribe subject = none then .active else st
  | .drain => if st = .active then .drained else st
  | _ => st

/-- The state of the reply subscription after a run of `publish`. -/
def subscription (w : NatsWorld) (es : List Effect) : SubState :=
  es.foldl (SubState.step w) .absent

/-- The messages passed to `printResponse`, in call order. -/
def printed : List Effect → List Msg
  | [] => []
  | .printResponse m :: es => m :: printed es
  | _ :: es => printed es

/-- The reply messages of a trace, in arrival order. -/
def replies : List Event → List Msg
  | [] => []
  | .reply m :: es => m :: replies es
  | .deadline :: es => replies es

/-- Whether an event is a reply. -/
def Event.isReply : Event → Bool
  | .reply _ => true
  | .deadline => false

/-- Number of replies that precede the first deadline event. -/
def repliesBeforeDeadline (trace : List Event) : Nat :=
  (trace.takeWhile Event.isReply).length

/-! ## The `natscontext` package -/

/-- A named configuration profile (the `natscontext.Context` type with its read
accessors as fields). -/
structure Context where
  Name : String
  Description : String
  ServerURL : String
  User : String
  Password : String
  Creds : String
  NKey : String
  Certificate : String
  Key : String
  CA : String
  Path : String
deriving DecidableEq, Repr

/-- The options `natscontext.New` is called with in `createCommand`. -/
inductive CtxOption where
  | WithServerURL (v : String)
  | WithUser (v : String)
  | WithPassword (v : String)
  | WithCreds (v : String)
  | WithNKey (v : String)
  | WithCertificate (v : String)
  | WithKey (v : String)
  | WithCA (v : String)
  | WithDescription (v : String)
deriving DecidableEq, Repr

/-- The configuration root: one file per context and the selection pointer, which is
the empty string when nothing is selected. -/
structure Store where
  files : List (String × Context)
  selected : String
deriving DecidableEq, Repr

/-- The answers of the outside world to the context commands: the platform, the
environment, file system failures and the answers typed at the prompts. -/
structure CtxWorld where
  /-- The constant `os.PathSeparator`. -/
  PathSeparator : Char
  /-- The value of the `NATS_CONTEXT` environment variable, empty when unset. -/
  envContext : String
  /-- The constant `nats.DefaultURL`. -/
  DefaultURL : String
  /-- A failure reading the file of a context, other than its absence. -/
  readFault : String → Option String
  /-- A failure writing the file of a context. -/
  writeFault : String → Option String
  /-- A failure removing the file of a context. -/
  removeFault : String → Option String
  /-- A failure writing the selection pointer. -/
  pointerFault : String → Option String
  /-- The function `askConfirmation(prompt, default)`, declared in another file; the
  prompt is given as its format and its argument. -/
  askConfirmation : String → String → Bool → Except Err Bool
  /-- The function `survey.AskOne` on a `survey.Select` with these options: the answer
  it stores, or its error. -/
  AskOne : List String → Except Err String

/-- Whether a list of characters holds two dots in a row. -/
def hasDotDot : List Char → Bool
  | [] => false
  | [_] => false
  | a :: b :: rest => (a == '.' && b == '.') || hasDotDot (b :: rest)

/-- Modelled from the spec: the name validator of `natscontext` (section 4.1). It
rejects a name that contains the OS path separator or `..`, and rejects the empty
name only where persistence requires a concrete name. `none` is acceptance. -/
def Validate (w : CtxWorld) (persist : Bool) (name : String) : Option Err :=
  if (persist && name.data.isEmpty) || name.data.contains w.PathSeparator || hasDotDot name.data then
    some (.invalidName name)
  else
    none

/-- Modelled from the spec: `natscontext.KnownContexts` (section 4.2), the names of
the context files of the configuration root. -/
def KnownContexts (s : Store) : List String :=
  s.files.map Prod.fst

/-- Modelled from the spec: `natscontext.SelectedContext` (section 4.2), the persisted
selection pointer, empty when there is none. -/
def SelectedContext (s : Store) : String :=
  s.selected

/-- Modelled from the spec: `natscontext.IsKnown` (section 4.2), true iff a context
file for the name exists. -/
def IsKnown (s : Store) (name : String) : Bool :=
  (KnownContexts s).contains name

/-- Modelled from the spec: the effect of one override on a context (section 3,
override set). The commands pass every option on every call, with the empty string for
a value the user did not give, so an option with an empty value is an absent one. -/
def CtxOption.apply : CtxOption → Context → Context
  | .WithServerURL v, c => if v = "" then c else { c with ServerURL := v }
  | .WithUser v, c => if v = "" then c else { c with User := v }
  | .WithPassword v, c => if v = "" then c else { c with Password := v }
  | .WithCreds v, c => if v = "" then c else { c with Creds := v }
  | .WithNKey v, c => if v = "" then c else { c with NKey := v }
  | .WithCertificate v, c => if v = "" then c else { c with Certificate := v }
  | .WithKey v, c => if v = "" then c else { c with Key := v }
  | .WithCA v, c => if v = "" then c else { c with CA := v }
  | .WithDescription v, c => if v = "" then c else { c with Description := v }

/-- Modelled from the spec: the empty context with the built-in default server
address (section 4.3, step 2). -/
def emptyContext (w : CtxWorld) : Context :=
  { Name := "", Description := "", ServerURL := w.DefaultURL, User := "", Password := "",
    Creds := "", NKey := "", Certificate := "", Key := "", CA := "", Path := "" }

/-- Modelled from the spec: the effective base name of the resolver (section 4.3, step
1): the explicit name, else the environment variable, else the persisted selection. -/
def baseName (w : CtxWorld) (s : Store) (name : String) : String :=
  if name ≠ "" then name else if w.envContext ≠ "" then w.envContext else s.selected

/-- Modelled from the spec: `natscontext.New`, the resolver of section 4.3. An invalid
explicit name fails before any disk access; the base context is loaded when `load` is
set and the base name is known, and is the empty context otherwise; the overrides are
applied on top. The store is only read. -/
def New (w : CtxWorld) (s : Store) (name : String) (load : Bool) (opts : List CtxOption) :
    Except Err Context :=
  match Validate w false name with
  | some e => .error e
  | none =>
    if load = true ∧ IsKnown s (baseName w s name) = true then
      match w.readFault (baseName w s name) with
      | some cause => .error (.fs cause)
      | none =>
        match s.files.lookup (baseName w s name) with
        | some ctx => .ok (opts.foldl (fun c o => o.apply c) ctx)
        | none => .ok (opts.foldl (fun c o => o.apply c) (emptyContext w))
    else
      .ok (opts.foldl (fun c o => o.apply c) (emptyContext w))

/-- Modelled from the spec: `Context.Save` (section 4.2). It validates the name, then
writes the file of that name; a failure leaves the store as it was. -/
def Save (w : CtxWorld) (s : Store) (ctx : Context) (name : String) : Option Err × Store :=
  match Validate w true name with
  | some e => (some e, s)
  | none =>
    match w.writeFault name with
    | some cause => (some (.fs cause), s)
    | none => (none, { s with files := (name, ctx) :: s.files.filter (fun f => f.1 != name) })

/-- Modelled from the spec: `natscontext.DeleteContext` (section 4.2). It removes the
file of the name and clears the selection pointer when it named that context; deleting
a context that does not exist is not an error. -/
def DeleteContext (w : CtxWorld) (s : Store) (name : String) : Option Err × Store :=
  match w.removeFault name with
  | some cause => (some (.fs cause), s)
  | none =>
    (none, { files := s.files.filter (fun f => f.1 != name),
             selected := if s.selected = name then "" else s.selected })

/-- Modelled from the spec: `natscontext.SelectContext` (section 4.2). It fails for a
name that is not known and otherwise overwrites the selection pointer. -/
def SelectContext (w : CtxWorld) (s : Store) (name : String) : Option Err × Store :=
  if IsKnown s name = true then
    match w.pointerFault name with
    | some cause => (some (.fs cause), s)
    | none => (none, { s with selected := name })
  else
    (some (.unknownContext name), s)

/-! ## `context_command.go` -/

/-- Embedding of `type ctxCommand struct`. -/
structure ctxCommand where
  json : Bool
  activate : Bool
  description : String
  name : String
  force : Bool
deriving DecidableEq, Repr

/-- The package level variables of `main` that `createCommand` reads; they are set by
the global flags and declared in another file. -/
structure Globals where
  cfgCtx : String
  servers : String
  username : String
  password : String
  creds : String
  nkey : String
  tlsCert : String
  tlsKey : String
  tlsCA : String
deriving DecidableEq, Repr

/-- Every call a context command makes to a collaborator. -/
inductive Call where
  | IsKnown (name : String)
  | New (name : String) (load : Bool) (opts : List CtxOption)
  | Save (cfg : Context) (name : String)
  | KnownContexts
  | SelectedContext
  | AskOne (options : List String)
  | SelectContext (name : String)
  | askConfirmation (format : String) (arg : String) (dflt : Bool)
  | DeleteContext (name : String)
  | printJSON (cfg : Context)
  | Printf (format : String) (arg : String)
  | Println
deriving DecidableEq, Repr

/-- The state a context command runs in: the configuration root and the calls made so
far, oldest first. -/
structure Sys where
  store : Store
  calls : List Call
deriving DecidableEq, Repr

/-- Record calls. -/
def Sys.log (s : Sys) (cs : List Call) : Sys :=
  { s with calls := s.calls ++ cs }

/-- Embedding of `ctxCommand.showIfNotEmpty`. -/
def showIfNotEmpty (format : String) (arg : String) : List Call :=
  if arg = "" then [] else [.Printf format arg]

/-- Embedding of `ctxCommand.showCommand`. -/
def showCommand (w : CtxWorld) (c0 : ctxCommand) (s0 : Sys) : Option Err × ctxCommand × Sys :=
  let c : ctxCommand := if c0.name = "" then { c0 with name := SelectedContext s0.store } else c0
  let s : Sys := if c0.name = "" then s0.log [.SelectedContext] else s0
  if c.name = "" then
    (some (.errorf "no default context and no name supplied"), c, s)
  else
    match New w s.store c.name true [] with
    | .error e => (some e, c, s.log [.New c.name true []])
    | .ok cfg =>
      if c.json = true then
        (none, c, s.log [.New c.name true [], .printJSON cfg])
      else
        (none, c, s.log ([.New c.name true [],
            .Printf "NATS Configuration Context %q\n\n" c.name]
          ++ showIfNotEmpty "  Description: %s\n" cfg.Description
          ++ showIfNotEmpty "  Server URLs: %s\n" cfg.ServerURL
          ++ showIfNotEmpty "     Username: %s\n" cfg.User
          ++ showIfNotEmpty "     Password: %s\n" cfg.Password
          ++ showIfNotEmpty "  Credentials: %s\n" cfg.Creds
          ++ showIfNotEmpty "         NKey: %s\n" cfg.NKey
          ++ showIfNotEmpty "  Certificate: %s\n" cfg.Certificate
          ++ showIfNotEmpty "          Key: %s\n" cfg.Key
          ++ showIfNotEmpty "           CA: %s\n" cfg.CA
          ++ showIfNotEmpty "         Path: %s\n" cfg.Path
          ++ [.Println]))

/-- Embedding of the end of `selectCommand` (lines 223 to 227). -/
def selectChosen (w : CtxWorld) (c : ctxCommand) (s : Sys) : Option Err × ctxCommand × Sys :=
  if c.name = "" then
    (some (.errorf "please select a context to activate"), c, s)
  else
    ((SelectContext w s.store c.name).1, c,
      { store := (SelectContext w s.store c.name).2, calls := s.calls ++ [.SelectContext c.name] })

/-- Embedding of `ctxCommand.selectCommand`. -/
def selectCommand (w : CtxWorld) (c : ctxCommand) (s0 : Sys) : Option Err × ctxCommand × Sys :=
  let known := KnownContexts s0.store
  let s := s0.log [.KnownContexts]
  if known.length = 0 then
    (some (.errorf "no context defined"), c, s)
  else if c.name = "" then
    match w.AskOne known with
    | .error e => (some e, c, s.log [.AskOne known])
    | .ok answer => selectChosen w { c with name := answer } (s.log [.AskOne known])
  else
    selectChosen w c s

/-- Embedding of the `switch` of `createCommand` (lines 152 to 162): the name to load
from and the load flag. -/
def loadTarget (g : Globals) (c : ctxCommand) (s : Store) : String × Bool :=
  if IsKnown s c.name = true then (c.name, true)
  else if g.cfgCtx ≠ "" then (g.cfgCtx, true)
  else ("", false)

/-- The options `createCommand` passes to `natscontext.New` (lines 165 to 173). -/
def createOptions (g : Globals) (c : ctxCommand) : List CtxOption :=
  [.WithServerURL g.servers, .WithUser g.username, .WithPassword g.password,
   .WithCreds g.creds, .WithNKey g.nkey, .WithCertificate g.tlsCert, .WithKey g.tlsKey,
   .WithCA g.tlsCA, .WithDescription c.description]

/-- Embedding of `ctxCommand.createCommand`. -/
def createCommand (w : CtxWorld) (g : Globals) (c : ctxCommand) (s0 : Sys) :
    Option Err × ctxCommand × Sys :=
  let lname := (loadTarget g c s0.store).1
  let load := (loadTarget g c s0.store).2
  let s := s0.log [.IsKnown c.name, .New lname load (createOptions g c)]
  match New w s.store lname load (createOptions g c) with
  | .error e => (some e, c, s)
  | .ok config =>
    match Save w s.store config c.name with
    | (some e, st) => (some e, c, { store := st, calls := s.calls ++ [.Save config c.name] })
    | (none, st) =>
      if c.activate = true then
        selectCommand w c { store := st, calls := s.calls ++ [.Save config c.name] }
      else
        (none, c, { store := st, calls := s.calls ++ [.Save config c.name] })

/-- Embedding of `ctxCommand.removeCommand`. -/
def removeCommand (w : CtxWorld) (c : ctxCommand) (s : Sys) : Option Err × ctxCommand × Sys :=
  if c.force = false then
    match w.askConfirmation "Really delete context %q" c.name false with
    | .error err =>
      (some (.errorf ("could not obtain confirmation: " ++ err.Error)), c,
        s.log [.askConfirmation "Really delete context %q" c.name false])
    | .ok ok =>
      if ok = false then
        (none, c, s.log [.askConfirmation "Really delete context %q" c.name false])
      else
        ((DeleteContext w s.store c.name).1, c,
          { store := (DeleteContext w s.store c.name).2,
            calls := s.calls ++ [.askConfirmation "Really delete context %q" c.name false,
                                 .DeleteContext c.name] })
  else
    ((DeleteContext w s.store c.name).1, c,
      { store := (DeleteContext w s.store c.name).2, calls := s.calls ++ [.DeleteContext c.name] })

/-- The names passed to `Save`, in call order. -/
def savedNames : List Call → List String
  | [] => []
  | .Save _ name :: cs => name :: savedNames cs
  | _ :: cs => savedNames cs

/-- The names passed to `SelectContext`, in call order. -/
def selectedNames : List Call → List String
  | [] => []
  | .SelectContext name :: cs => name :: selectedNames cs
  | _ :: cs => selectedNames cs

/-- The names passed to `DeleteContext`, in call order. -/
def deletedNames : List Call → List String
  | [] => []
  | .DeleteContext name :: cs => name :: deletedNames cs
  | _ :: cs => deletedNames cs

/-- The name and load flag of every call of `natscontext.New`, in call order. -/
def newCalls : List Call → List (String × Bool)
  | [] => []
  | .New name load _ :: cs => (name, load) :: newCalls cs
  | _ :: cs => newCalls cs

/-- The number of confirmation prompts asked. -/
def promptCount : List Call → Nat
  | [] => 0
  | .askConfirmation _ _ _ :: cs => promptCount cs + 1
  | _ :: cs => promptCount cs

/-! ## Example inputs -/

/-- A responder reply used in the examples. -/
def exampleReply (n : String) : Msg :=
  { Subject := "_INBOX.x", Reply := "", Data := n, Header := [] }

/-- A world for the examples: everything succeeds, headers are left empty, the request
times out, and the `select` loop observes the given events. -/
def exampleWorld (events : List Event) : NatsWorld :=
  { connect := none, isTerminal := false, stdin := .ok "",
    parseStringsToHeader := fun _ m => (m, none),
    requestMsg := fun _ => .error (.client "nats: timeout"),
    newRespInbox := "_INBOX.x",
    chanSubscribe := fun _ => none,
    publishMsg := fun _ => none,
    events := events,
    lastError := none }

/-- The command built by the `pub --wait` command line: the `pub` command registers no
`reply_count` flag, so `respCount` keeps the zero value. -/
def pubWait : pubCmd :=
  { subject := "svc", body := "hello", req := true, replyTo := "", respCount := 0,
    raw := false, hdrs := [] }

/-- The command built by the `request` command line with its default `reply_count` of 1. -/
def requestOne : pubCmd :=
  { subject := "svc", body := "hello", req := true, replyTo := "", respCount := 1,
    raw := false, hdrs := [] }

/-- A world for the examples: a platform with `/` as path separator, no environment
override, no file system failure, a user who confirms and who picks `other`. -/
def exampleCtxWorld : CtxWorld :=
  { PathSeparator := '/', envContext := "", DefaultURL := "nats://localhost:4222",
    readFault := fun _ => none, writeFault := fun _ => none, removeFault := fun _ => none,
    pointerFault := fun _ => none,
    askConfirmation := fun _ _ _ => .ok true,
    AskOne := fun _ => .ok "other" }

/-- A configuration root without any context. -/
def emptyStore : Store :=
  { files := [], selected := "" }

/-! ## Lemmas on the collection loop -/

theorem printed_append (xs ys : List Effect) : printed (xs ++ ys) = printed xs ++ printed ys := by
  induction xs with
  | nil => simp [printed]
  | cons x xs ih => cases x <;> simp [printed, ih]

theorem replies_takeWhile (trace : List Event) :
    replies (trace.takeWhile Event.isReply) = (replies trace).take (repliesBeforeDeadline trace) := by
  induction trace with
  | nil => simp [replies, repliesBeforeDeadline]
  | cons e es ih =>
    cases e with
    | reply m =>
      simp only [repliesBeforeDeadline] at ih
      simp [replies, repliesBeforeDeadline, Event.isReply, List.takeWhile, ih]
    | deadline => simp [replies, repliesBeforeDeadline, Event.isReply, List.takeWhile]

/-- The loop started at counter `cnt` below the expected count prints the replies that
precede the deadline, and at most as many as are still expected. -/
theorem collect_printed_from (n : Nat) (hu : n < uintSize) (trace : List Event) :
    ∀ cnt, cnt < n →
      printed (collect n cnt trace).1
        = (replies (trace.takeWhile Event.isReply)).take (n - cnt) := by
  induction trace with
  | nil => intro cnt _; simp [collect, printed, replies]
  | cons e es ih =>
    intro cnt hc
    cases e with
    | deadline => simp [collect, printed, replies, Event.isReply, List.takeWhile]
    | reply m =>
      have hmod : (cnt + 1) % uintSize = cnt + 1 := Nat.mod_eq_of_lt (by omega)
      simp only [collect, hmod, List.takeWhile, Event.isReply, replies]
      by_cases h : cnt + 1 = n
      · have h1 : n - cnt = 1 := by omega
        simp [h, h1, printed]
      · have hlt : cnt + 1 < n := by omega
        have h1 : n - cnt = (n - (cnt + 1)) + 1 := by omega
        simp only [h, if_false, after, printed, List.singleton_append]
        rw [ih (cnt + 1) hlt, h1, List.take_succ_cons]

/-- The loop never returns an error. -/
theorem collect_no_error (n : Nat) (trace : List Event) :
    ∀ cnt, (collect n cnt trace).2 = .returned none ∨ (collect n cnt trace).2 = .blocked := by
  induction trace with
  | nil => intro cnt; simp [collect]
  | cons e es ih =>
    intro cnt
    cases e with
    | deadline => simp [collect]
    | reply m =>
      simp only [collect]
      split
      · simp
      · simpa [after] using ih ((cnt + 1) % uintSize)

/-- The loop returns once the timer has fired. -/
theorem collect_returns (n : Nat) (trace : List Event) (hd : Event.deadline ∈ trace) :
    ∀ cnt, (collect n cnt trace).2 = .returned none := by
  induction trace with
  | nil => simp at hd
  | cons e es ih =>
    intro cnt
    cases e with
    | deadline => simp [collect]
    | reply m =>
      simp only [collect]
      split
      · simp
      · have hd2 : Event.deadline ∈ es := by simpa using hd
        simpa [after] using ih hd2 ((cnt + 1) % uintSize)

/-- The loop returns once as many replies have arrived as were still expected. -/
theorem collect_returns_count (n : Nat) (hu : n < uintSize) (trace : List Event) :
    ∀ cnt, cnt < n → n - cnt ≤ (replies trace).length →
      (collect n cnt trace).2 = .returned none := by
  induction trace with
  | nil => intro cnt hc hl; simp [replies] at hl; omega
  | cons e es ih =>
    intro cnt hc hl
    cases e with
    | deadline => simp [collect]
    | reply m =>
      have hmod : (cnt + 1) % uintSize = cnt + 1 := Nat.mod_eq_of_lt (by omega)
      simp only [collect, hmod]
      simp only [replies, List.length_cons] at hl
      by_cases h : cnt + 1 = n
      · simp [h]
      · simp only [h, if_false, after]
        exact ih (cnt + 1) (by omega) (by omega)

/-- The loop calls nothing but `printResponse`, so it leaves the subscription as it is. -/
theorem collect_keeps_subscription (w : NatsWorld) (n : Nat) (trace : List Event) :
    ∀ cnt st, (collect n cnt trace).1.foldl (SubState.step w) st = st := by
  induction trace with
  | nil => intro cnt st; simp [collect]
  | cons e es ih =>
    intro cnt st
    cases e with
    | deadline => simp [collect]
    | reply m =>
      simp only [collect]
      split
      · simp [SubState.step]
      · simp [after, SubState.step, ih]

/-- The loop never drains the subscription itself. -/
theorem collect_no_drain (n : Nat) (trace : List Event) :
    ∀ cnt, Effect.drain ∉ (collect n cnt trace).1 := by
  induction trace with
  | nil => intro cnt; simp [collect]
  | cons e es ih =>
    intro cnt
    cases e with
    | deadline => simp [collect]
    | reply m =>
      simp only [collect]
      split
      · simp
      · simpa [after] using ih ((cnt + 1) % uintSize)

theorem runDeferred_snd (d : List Effect) (r : List Effect × Outcome) :
    (runDeferred d r).2 = r.2 := by
  rcases r with ⟨es, o⟩
  cases o <;> rfl

theorem after_snd (d : List Effect) (r : List Effect × Outcome) : (after d r).2 = r.2 := rfl

/-- Reading the payload does not touch the subscription. -/
theorem readPayload_keeps_subscription (w : NatsWorld) (c : pubCmd) (st : SubState) :
    (readPayload w c).1.foldl (SubState.step w) st = st := by
  unfold readPayload
  split
  · split <;> simp [SubState.step]
  · simp

theorem readPayload_no_drain (w : NatsWorld) (c : pubCmd) :
    Effect.drain ∉ (readPayload w c).1 := by
  unfold readPayload
  split
  · split <;> simp
  · simp

/-- The outcome of `publish` in multi-reply mode, once connected and with the request
prepared: the error of `ChanSubscribe`, else the error of `PublishMsg`, else the outcome
of the collection loop. -/
theorem publish_multi_outcome (w : NatsWorld) (c c1 : pubCmd) (msg : Msg)
    (hconn : w.connect = none) (hread : (readPayload w c).2 = .ok c1)
    (hreq : c1.req = true) (hprep : prepareMsg w c1 = (msg, none))
    (hcnt : c1.respCount ≠ 1) :
    (publish w c).2 =
      match w.chanSubscribe (withReplyInbox w msg).Reply with
      | some e => .returned (some e)
      | none =>
        match w.publishMsg (withReplyInbox w msg) with
        | some e => .returned (some e)
        | none => (collect c1.respCount 0 w.events).2 := by
  simp only [publish, hconn, hread, hreq, if_true, publishRequest, hprep, hcnt, if_false,
    publishMulti, runDeferred_snd, after_snd]
  cases w.chanSubscribe (withReplyInbox w msg).Reply with
  | some e => simp
  | none =>
    simp only [runDeferred_snd, after_snd]
    cases w.publishMsg (withReplyInbox w msg) <;> simp

/-- The calls of `publish` in multi-reply mode when it returns after a successful
`ChanSubscribe`: they end with `Drain`, then the two other deferred calls. -/
theorem publish_multi_calls (w : NatsWorld) (c c1 : pubCmd) (msg : Msg)
    (hconn : w.connect = none) (hread : (readPayload w c).2 = .ok c1)
    (hreq : c1.req = true) (hprep : prepareMsg w c1 = (msg, none))
    (hcnt : c1.respCount ≠ 1)
    (hsub : w.chanSubscribe (withReplyInbox w msg).Reply = none)
    (r : Option Err) (hret : (publish w c).2 = .returned r) :
    ∃ body : List Effect,
      (publish w c).1 =
        (readPayload w c).1 ++ (if c1.raw = true then [] else [.logSendingRequest c1.subject])
          ++ [.chanSubscribe (withReplyInbox w msg).Reply c1.respCount,
              .publishMsg (withReplyInbox w msg)]
          ++ body ++ [.drain, .closeChan, .connClose]
      ∧ Effect.drain ∉ body
      ∧ ∀ st, body.foldl (SubState.step w) st = st := by
  rw [publish_multi_outcome w c c1 msg hconn hread hreq hprep hcnt, hsub] at hret
  simp only at hret
  simp only [publish, hconn, hread, hreq, if_true, publishRequest, hprep, hcnt, if_false,
    publishMulti, hsub]
  cases hp : w.publishMsg (withReplyInbox w msg) with
  | some e =>
    refine ⟨[], ?_, by simp, by simp⟩
    simp [runDeferred, after]
  | none =>
    rw [hp] at hret
    simp only at hret
    refine ⟨(collect c1.respCount 0 w.events).1, ?_, collect_no_drain _ _ _,
      collect_keeps_subscription w _ _ _⟩
    have hX : collect c1.respCount 0 w.events
        = ((collect c1.respCount 0 w.events).1, Outcome.returned r) := by
      rw [← hret]
    rw [hX]
    simp [runDeferred, after]

/-! ## Claims on `publish` -/

/-- C1: for every expected count `n ≥ 2` (a `uint`) and every trace of events, the
replies passed to `printResponse` by the collection loop are exactly the first
`min n k` replies of the trace in arrival order, where `k` is the number of replies
that precede the first deadline event. -/
theorem collect_prints_first_replies (n : Nat) (hn : 2 ≤ n) (hu : n < uintSize)
    (trace : List Event) :
    printed (collect n 0 trace).1
      = (replies trace).take (min n (repliesBeforeDeadline trace)) := by
  rw [collect_printed_from n hu trace 0 (by omega), replies_takeWhile, List.take_take]
  simp

/-- Witness of C1: with `n = 3`, the trace `[reply r1, reply r2, deadline, reply r3]`
gives `[r1, r2]`. -/
theorem collect_prints_first_replies_witness :
    2 ≤ 3 ∧ 3 < uintSize ∧
    printed (collect 3 0
        [.reply ⟨"r1", "", "a", []⟩, .reply ⟨"r2", "", "b", []⟩, .deadline,
         .reply ⟨"r3", "", "c", []⟩]).1
      = [⟨"r1", "", "a", []⟩, ⟨"r2", "", "b", []⟩] :=
  ⟨by decide, by decide, by
    rw [collect_prints_first_replies 3 (by decide) (by decide)]
    rfl⟩

/-- C2, at the failing input: with the expected count 0 of `pub --wait`, two replies
that arrive before the deadline are both printed, so more than 0 replies are processed:
the counter is compared with the expected count only after it was incremented. -/
theorem publish_zero_count_exceeds_bound :
    printed (publish
        (exampleWorld [.reply (exampleReply "a"), .reply (exampleReply "b"), .deadline])
        pubWait).1
      = [exampleReply "a", exampleReply "b"]
    ∧ ¬ (printed (collect 0 0
        [.reply (exampleReply "a"), .reply (exampleReply "b"), .deadline]).1).length ≤ 0 := by
  constructor
  · simp [publish, exampleWorld, pubWait, readPayload, publishRequest, prepareMsg, publishMulti,
      withReplyInbox, collect, uintSize, runDeferred, after, printed]
  · simp [collect, uintSize, after, printed]

/-- C3: in multi-reply mode, once connected, with the request prepared, subscribed and
published, `publish` never returns an error; it returns `nil` when the timer fires, when
the timer fires before any reply (and then nothing is printed), and when the expected
count is reached. -/
theorem publish_multi_returns_nil (w : NatsWorld) (c c1 : pubCmd) (msg : Msg)
    (hconn : w.connect = none) (hread : (readPayload w c).2 = .ok c1)
    (hreq : c1.req = true) (hprep : prepareMsg w c1 = (msg, none))
    (hcnt : c1.respCount ≠ 1)
    (hsub : w.chanSubscribe (withReplyInbox w msg).Reply = none)
    (hpub : w.publishMsg (withReplyInbox w msg) = none) :
    (∀ e, (publish w c).2 ≠ .returned (some e))
    ∧ (Event.deadline ∈ w.events → (publish w c).2 = .returned none)
    ∧ (∀ rest, w.events = .deadline :: rest →
        (publish w c).2 = .returned none ∧ printed (publish w c).1 = [])
    ∧ (2 ≤ c1.respCount → c1.respCount < uintSize →
        c1.respCount ≤ (replies w.events).length → (publish w c).2 = .returned none) := by
  have hout := publish_multi_outcome w c c1 msg hconn hread hreq hprep hcnt
  rw [hsub] at hout
  simp only [hpub] at hout
  refine ⟨?_, ?_, ?_, ?_⟩
  · intro e he
    rw [hout] at he
    rcases collect_no_error c1.respCount w.events 0 with h | h <;> rw [h] at he <;> simp at he
  · intro hd
    rw [hout]
    exact collect_returns c1.respCount w.events hd 0
  · intro rest hev
    have hret : (publish w c).2 = .returned none := by
      rw [hout, hev]
      simp [collect]
    refine ⟨hret, ?_⟩
    simp only [publish, hconn, hread, hreq, if_true, publishRequest, hprep, hcnt, if_false,
      publishMulti, hsub, hpub, hev, collect]
    have hrp : printed (readPayload w c).1 = [] := by
      unfold readPayload
      split
      · split <;> simp [printed]
      · simp [printed]
    by_cases hraw : c1.raw = true <;>
      simp [runDeferred, after, printed_append, printed, hrp, hraw]
  · intro h2 hu hl
    rw [hout]
    exact collect_returns_count c1.respCount hu w.events 0 (by omega) (by omega)

/-- Witness of C3: `pub --wait` with no reply before the deadline returns `nil`. -/
theorem publish_multi_returns_nil_witness :
    (publish (exampleWorld [.deadline]) pubWait).2 = .returned none
    ∧ printed (publish (exampleWorld [.deadline]) pubWait).1 = [] :=
  (publish_multi_returns_nil (exampleWorld [.deadline]) pubWait pubWait
    { Subject := "svc", Reply := "", Data := "hello", Header := [] }
    rfl (by simp [readPayload, pubWait]) rfl rfl (by decide) rfl rfl).2.2.1 [] rfl

/-- C4: in single-expected-reply mode, once connected and with the request prepared, an
error of the synchronous request is returned as it is and `printResponse` is never
called; a reply is printed, alone, and `publish` returns `nil`. -/
theorem publish_single_reply (w : NatsWorld) (c c1 : pubCmd) (msg : Msg)
    (hconn : w.connect = none) (hread : (readPayload w c).2 = .ok c1)
    (hreq : c1.req = true) (hprep : prepareMsg w c1 = (msg, none))
    (hcnt : c1.respCount = 1) :
    (∀ e, w.requestMsg msg = .error e →
        (publish w c).2 = .returned (some e) ∧ printed (publish w c).1 = [])
    ∧ (∀ m, w.requestMsg msg = .ok m →
        (publish w c).2 = .returned none ∧ printed (publish w c).1 = [m]) := by
  have hrp : printed (readPayload w c).1 = [] := by
    unfold readPayload
    split
    · split <;> simp [printed]
    · simp [printed]
  constructor
  · intro e he
    simp only [publish, hconn, hread, hreq, if_true, publishRequest, hprep, hcnt, he]
    by_cases hraw : c1.raw = true <;>
      simp [runDeferred, after, printed_append, printed, hrp, hraw]
  · intro m hm
    simp only [publish, hconn, hread, hreq, if_true, publishRequest, hprep, hcnt, hm]
    by_cases hraw : c1.raw = true <;>
      simp [runDeferred, after, printed_append, printed, hrp, hraw]

/-- Witness of C4: a request for one reply that times out returns the timeout error
and prints nothing. -/
theorem publish_single_reply_witness :
    (publish (exampleWorld []) requestOne).2 = .returned (some (.client "nats: timeout"))
    ∧ printed (publish (exampleWorld []) requestOne).1 = [] :=
  (publish_single_reply (exampleWorld []) requestOne requestOne
    { Subject := "svc", Reply := "", Data := "hello", Header := [] }
    rfl (by simp [readPayload, requestOne]) rfl rfl rfl).1 (.client "nats: timeout") rfl

/-- C5: in multi-reply mode, once connected and with the request prepared: when
`ChanSubscribe` fails its error is returned, `Drain` is never called and there is no
subscription; when `ChanSubscribe` succeeded, every return of `publish` is preceded by
`Drain` (the calls end with `Drain`, `close(msgChan)`, `nc.Close()`) and leaves the
subscription drained, and `publish` does return when the publish of the request fails
(with that error), when the timer fires, and when the expected count is reached. -/
theorem publish_multi_drains (w : NatsWorld) (c c1 : pubCmd) (msg : Msg)
    (hconn : w.connect = none) (hread : (readPayload w c).2 = .ok c1)
    (hreq : c1.req = true) (hprep : prepareMsg w c1 = (msg, none))
    (hcnt : c1.respCount ≠ 1) :
    (∀ e, w.chanSubscribe (withReplyInbox w msg).Reply = some e →
        (publish w c).2 = .returned (some e) ∧ Effect.drain ∉ (publish w c).1
        ∧ subscription w (publish w c).1 = .absent)
    ∧ (w.chanSubscribe (withReplyInbox w msg).Reply = none →
        (∀ r, (publish w c).2 = .returned r →
          (∃ before, (publish w c).1 = before ++ [.drain, .closeChan, .connClose]
            ∧ Effect.drain ∉ before)
          ∧ subscription w (publish w c).1 = .drained)
        ∧ (∀ e, w.publishMsg (withReplyInbox w msg) = some e →
            (publish w c).2 = .returned (some e))
        ∧ (w.publishMsg (withReplyInbox w msg) = none → Event.deadline ∈ w.events →
            (publish w c).2 = .returned none)
        ∧ (w.publishMsg (withReplyInbox w msg) = none → 2 ≤ c1.respCount →
            c1.respCount < uintSize → c1.respCount ≤ (replies w.events).length →
            (publish w c).2 = .returned none)) := by
  have hout := publish_multi_outcome w c c1 msg hconn hread hreq hprep hcnt
  constructor
  · intro e hsub
    rw [hsub] at hout
    refine ⟨hout, ?_, ?_⟩
    · simp only [publish, hconn, hread, hreq, if_true, publishRequest, hprep, hcnt, if_false,
        publishMulti, hsub]
      have := readPayload_no_drain w c
      by_cases hraw : c1.raw = true <;> simp [runDeferred, after, hraw, this]
    · simp only [publish, hconn, hread, hreq, if_true, publishRequest, hprep, hcnt, if_false,
        publishMulti, hsub, subscription]
      by_cases hraw : c1.raw = true <;>
        simp [runDeferred, after, hraw, List.foldl_append, readPayload_keeps_subscription,
          SubState.step, hsub]
  · intro hsub
    rw [hsub] at hout
    simp only at hout
    refine ⟨?_, ?_, ?_, ?_⟩
    · intro r hret
      obtain ⟨body, hcalls, hnd, hkeep⟩ :=
        publish_multi_calls w c c1 msg hconn hread hreq hprep hcnt hsub r hret
      constructor
      · refine ⟨(readPayload w c).1
            ++ (if c1.raw = true then [] else [.logSendingRequest c1.subject])
            ++ [.chanSubscribe (withReplyInbox w msg).Reply c1.respCount,
                .publishMsg (withReplyInbox w msg)] ++ body, hcalls, ?_⟩
        have := readPayload_no_drain w c
        by_cases hraw : c1.raw = true <;> simp [hraw, this, hnd]
      · rw [hcalls]
        by_cases hraw : c1.raw = true <;>
          simp [subscription, hraw, List.foldl_append, readPayload_keeps_subscription,
            SubState.step, hsub, hkeep]
    · intro e hp
      rw [hp] at hout
      exact hout
    · intro hp hd
      rw [hp] at hout
      rw [hout]
      exact collect_returns c1.respCount w.events hd 0
    · intro hp h2 hu hl
      rw [hp] at hout
      rw [hout]
      exact collect_returns_count c1.respCount hu w.events 0 (by omega) (by omega)

/-- Witness of C5: `pub --wait` with one reply before the deadline returns with the
subscription drained. -/
theorem publish_multi_drains_witness :
    subscription (exampleWorld [.reply (exampleReply "a"), .deadline])
      (publish (exampleWorld [.reply (exampleReply "a"), .deadline]) pubWait).1 = .drained :=
  (((publish_multi_drains (exampleWorld [.reply (exampleReply "a"), .deadline]) pubWait pubWait
    { Subject := "svc", Reply := "", Data := "hello", Header := [] }
    rfl (by simp [readPayload, pubWait]) rfl rfl (by decide)).2 rfl).1 none
      (by simp [publish, exampleWorld, pubWait, readPayload, publishRequest, prepareMsg,
        publishMulti, withReplyInbox, collect, uintSize, runDeferred, after])).2

/-! ## Claims on the context commands -/

theorem hasDotDot_of_append (pre post : List Char) :
    hasDotDot (pre ++ '.' :: '.' :: post) = true := by
  induction pre with
  | nil => simp [hasDotDot]
  | cons a pre ih =>
    cases pre with
    | nil => simp [hasDotDot]
    | cons b pre => simpa [hasDotDot] using Or.inr ih

theorem hasDotDot_of_contains (l : List Char) (h : ['.', '.'] <:+: l) : hasDotDot l = true := by
  obtain ⟨pre, post, rfl⟩ := h
  simpa using hasDotDot_of_append pre post

/-- `Save` accepts only names the validator accepts for persistence. -/
theorem Save_ok_valid (w : CtxWorld) (s st : Store) (ctx : Context) (name : String)
    (h : Save w s ctx name = (none, st)) :
    Validate w true name = none ∧ w.writeFault name = none
      ∧ st = { s with files := (name, ctx) :: s.files.filter (fun f => f.1 != name) } := by
  unfold Save at h
  cases hv : Validate w true name with
  | some e => simp [hv] at h
  | none =>
    cases hw : w.writeFault name with
    | some cause => simp [hv, hw] at h
    | none =>
      simp only [hv, hw, Prod.mk.injEq, true_and] at h
      exact ⟨rfl, rfl, h.symm⟩

/-- A name accepted for persistence is not empty. -/
theorem Validate_persist_nonempty (w : CtxWorld) (name : String)
    (h : Validate w true name = none) : name ≠ "" := by
  intro he
  subst he
  simp [Validate] at h

/-- C6: for every context name that contains the OS path separator or `..`, saving a
context under that name fails with an error and leaves the configuration root as it
was, so no file is created. -/
theorem Save_rejects_invalid_name (w : CtxWorld) (s : Store) (ctx : Context) (name : String)
    (h : w.PathSeparator ∈ name.data ∨ ['.', '.'] <:+: name.data) :
    (Save w s ctx name).1 = some (.invalidName name) ∧ (Save w s ctx name).2 = s := by
  have hv : Validate w true name = some (.invalidName name) := by
    unfold Validate
    rcases h with h | h
    · simp [h]
    · simp [hasDotDot_of_contains _ h]
  simp [Save, hv]

/-- Witness of C6, from `TestContext`: `Save("not..valid")` and `Save("/aaaa")` on an
empty in-memory context both return an error. -/
theorem Save_rejects_invalid_name_witness :
    (Save exampleCtxWorld emptyStore (emptyContext exampleCtxWorld) "not..valid").1
        = some (.invalidName "not..valid")
    ∧ (Save exampleCtxWorld emptyStore (emptyContext exampleCtxWorld) "/aaaa").1
        = some (.invalidName "/aaaa")
    ∧ (Save exampleCtxWorld emptyStore (emptyContext exampleCtxWorld) "/aaaa").2 = emptyStore :=
  ⟨(Save_rejects_invalid_name exampleCtxWorld emptyStore (emptyContext exampleCtxWorld)
      "not..valid" (Or.inr ⟨['n', 'o', 't'], ['v', 'a', 'l', 'i', 'd'], rfl⟩)).1,
   (Save_rejects_invalid_name exampleCtxWorld emptyStore (emptyContext exampleCtxWorld)
      "/aaaa" (Or.inl (by decide))).1,
   (Save_rejects_invalid_name exampleCtxWorld emptyStore (emptyContext exampleCtxWorld)
      "/aaaa" (Or.inl (by decide))).2⟩

/-- C7: in every run of `createCommand` in which `natscontext.New` and `Save` succeed,
`New` is called once, with the name and load flag chosen by the switch (`c.name` and
true when it is known, else `cfgCtx` and true when that is not empty, else the empty
name and false); `Save` is called once, with `c.name`, and the file of `c.name` then
holds the resolved context; with the select flag set and at least one context listed
after the save, `SelectContext` is called once, with `c.name`; with the flag unset it
is not called. -/
theorem createCommand_saves_under_name (w : CtxWorld) (g : Globals) (c : ctxCommand)
    (store st : Store) (config : Context)
    (hnew : New w store (loadTarget g c store).1 (loadTarget g c store).2 (createOptions g c)
      = .ok config)
    (hsave : Save w store config c.name = (none, st)) :
    savedNames (createCommand w g c ⟨store, []⟩).2.2.calls = [c.name]
    ∧ newCalls (createCommand w g c ⟨store, []⟩).2.2.calls = [loadTarget g c store]
    ∧ loadTarget g c store =
        (if IsKnown store c.name = true then (c.name, true)
         else if g.cfgCtx ≠ "" then (g.cfgCtx, true) else ("", false))
    ∧ (createCommand w g c ⟨store, []⟩).2.2.store.files.lookup c.name = some config
    ∧ (c.activate = true → KnownContexts st ≠ [] →
        selectedNames (createCommand w g c ⟨store, []⟩).2.2.calls = [c.name])
    ∧ (c.activate = false →
        selectedNames (createCommand w g c ⟨store, []⟩).2.2.calls = []
        ∧ (createCommand w g c ⟨store, []⟩).1 = none) := by
  obtain ⟨hval, -, hst⟩ := Save_ok_valid w store st config c.name hsave
  have hne : c.name ≠ "" := Validate_persist_nonempty w c.name hval
  have hlook : st.files.lookup c.name = some config := by
    rw [hst]
    simp [List.lookup]
  have hknown : (KnownContexts st).length ≠ 0 := by
    rw [hst]
    simp [KnownContexts]
  have hsel : (SelectContext w st c.name).2.files = st.files := by
    unfold SelectContext
    split
    · split <;> rfl
    · rfl
  have hknown2 : ¬ KnownContexts st = [] := fun h => hknown (by simp [h])
  refine ⟨?_, ?_, ?_, ?_, ?_, ?_⟩
  · by_cases hact : c.activate = true
    · simp [createCommand, Sys.log, hnew, hsave, hact, selectCommand, selectChosen, hknown2, hne,
        savedNames]
    · simp [createCommand, Sys.log, hnew, hsave, hact, savedNames]
  · by_cases hact : c.activate = true
    · simp [createCommand, Sys.log, hnew, hsave, hact, selectCommand, selectChosen, hknown2, hne,
        newCalls]
    · simp [createCommand, Sys.log, hnew, hsave, hact, newCalls]
  · simp only [loadTarget]
  · by_cases hact : c.activate = true
    · simp [createCommand, Sys.log, hnew, hsave, hact, selectCommand, selectChosen, hknown2, hne,
        hsel, hlook]
    · simp [createCommand, Sys.log, hnew, hsave, hact, hlook]
  · intro hact _
    simp [createCommand, Sys.log, hnew, hsave, hact, selectCommand, selectChosen, hknown2, hne,
      selectedNames]
  · intro hact
    simp [createCommand, Sys.log, hnew, hsave, hact, selectedNames]

/-- Witness of C7: `context save other --select` with the global context flag set to
the known context `gotest` loads `gotest`, saves under `other` and selects `other`. -/
theorem createCommand_saves_under_name_witness :
    savedNames (createCommand exampleCtxWorld
        { cfgCtx := "gotest", servers := "", username := "", password := "", creds := "",
          nkey := "", tlsCert := "", tlsKey := "", tlsCA := "" }
        { json := false, activate := true, description := "", name := "other", force := false }
        ⟨{ files := [("gotest", emptyContext exampleCtxWorld)], selected := "gotest" }, []⟩
      ).2.2.calls = ["other"] :=
  (createCommand_saves_under_name exampleCtxWorld
    { cfgCtx := "gotest", servers := "", username := "", password := "", creds := "",
      nkey := "", tlsCert := "", tlsKey := "", tlsCA := "" }
    { json := false, activate := true, description := "", name := "other", force := false }
    { files := [("gotest", emptyContext exampleCtxWorld)], selected := "gotest" }
    { files := [("other", emptyContext exampleCtxWorld), ("gotest", emptyContext exampleCtxWorld)],
      selected := "gotest" }
    (emptyContext exampleCtxWorld)
    (by simp [New, baseName, Validate, hasDotDot, loadTarget, IsKnown, KnownContexts, createOptions,
      CtxOption.apply, exampleCtxWorld, List.lookup])
    (by simp [Save, Validate, hasDotDot, exampleCtxWorld])).1

/-- An error of `natscontext.New` is never one built by `fmt.Errorf` in the commands. -/
theorem New_error_not_errorf (w : CtxWorld) (s : Store) (name : String) (load : Bool)
    (opts : List CtxOption) (e : Err) (h : New w s name load opts = .error e) (msg : String) :
    e ≠ .errorf msg := by
  unfold New at h
  cases hv : Validate w false name with
  | some e1 =>
    rw [hv] at h
    simp only [Except.error.injEq] at h
    subst h
    unfold Validate at hv
    split at hv
    · simp only [Option.some.injEq] at hv
      subst hv
      simp
    · simp at hv
  | none =>
    rw [hv] at h
    simp only at h
    split at h
    · cases hr : w.readFault (baseName w s name) with
      | some cause =>
        rw [hr] at h
        simp only [Except.error.injEq] at h
        subst h
        simp
      | none =>
        rw [hr] at h
        simp only at h
        cases hl : s.files.lookup (baseName w s name) <;> rw [hl] at h <;> simp at h
    · simp at h

/-- C8: `showCommand` fails with the no-selection error if and only if the name
argument is empty and `SelectedContext()` returns the empty string, and then
`natscontext.New` is not called; otherwise it calls `natscontext.New` exactly once, with
load set, for the explicit name when that is not empty and for the persisted selection
otherwise. -/
theorem showCommand_no_selection (w : CtxWorld) (c : ctxCommand) (store : Store) :
    ((showCommand w c ⟨store, []⟩).1
        = some (.errorf "no default context and no name supplied")
      ↔ c.name = "" ∧ SelectedContext store = "")
    ∧ (c.name = "" ∧ SelectedContext store = "" →
        newCalls (showCommand w c ⟨store, []⟩).2.2.calls = [])
    ∧ (¬ (c.name = "" ∧ SelectedContext store = "") →
        newCalls (showCommand w c ⟨store, []⟩).2.2.calls
          = [(if c.name = "" then SelectedContext store else c.name, true)]) := by
  have hnc : ∀ (fmt arg : String) (rest : List Call),
      newCalls (showIfNotEmpty fmt arg ++ rest) = newCalls rest := by
    intro fmt arg rest
    unfold showIfNotEmpty
    split <;> simp [newCalls]
  by_cases hn : c.name = ""
  · by_cases hs : SelectedContext store = ""
    · simp [showCommand, hn, hs, Sys.log, newCalls]
    · cases hnew : New w store (SelectedContext store) true [] with
      | error e =>
        have hne := New_error_not_errorf w store _ true [] e hnew
        simp [showCommand, hn, hs, Sys.log, newCalls, hnew, hne]
      | ok cfg =>
        by_cases hj : c.json = true
        · simp [showCommand, hn, hs, Sys.log, newCalls, hnew, hj]
        · simp [showCommand, hn, hs, Sys.log, newCalls, hnew, hj, hnc]
  · cases hnew : New w store c.name true [] with
    | error e =>
      have hne := New_error_not_errorf w store _ true [] e hnew
      simp [showCommand, hn, Sys.log, newCalls, hnew, hne]
    | ok cfg =>
      by_cases hj : c.json = true
      · simp [showCommand, hn, Sys.log, newCalls, hnew, hj]
      · simp [showCommand, hn, Sys.log, newCalls, hnew, hj, hnc]

/-- Witness of C8: `context show` without a name and without a selection fails with
the no-selection error. -/
theorem showCommand_no_selection_witness :
    (showCommand exampleCtxWorld
        { json := false, activate := false, description := "", name := "", force := false }
        ⟨emptyStore, []⟩).1
      = some (.errorf "no default context and no name supplied") :=
  (showCommand_no_selection exampleCtxWorld
    { json := false, activate := false, description := "", name := "", force := false }
    emptyStore).1.2 ⟨rfl, rfl⟩

/-- C9: `createCommand` leaves the store untouched on failure: when `natscontext.New`
returns an error, `createCommand` returns that error, calls neither `Save` nor
`SelectContext`, and the saved files and the selection pointer are as before; when
`Save` returns an error, `createCommand` returns that error and `SelectContext` is not
called, whatever the select flag. -/
theorem createCommand_failure (w : CtxWorld) (g : Globals) (c : ctxCommand) (store : Store) :
    (∀ e, New w store (loadTarget g c store).1 (loadTarget g c store).2 (createOptions g c)
          = .error e →
        (createCommand w g c ⟨store, []⟩).1 = some e
        ∧ savedNames (createCommand w g c ⟨store, []⟩).2.2.calls = []
        ∧ selectedNames (createCommand w g c ⟨store, []⟩).2.2.calls = []
        ∧ (createCommand w g c ⟨store, []⟩).2.2.store = store)
    ∧ (∀ config e st,
        New w store (loadTarget g c store).1 (loadTarget g c store).2 (createOptions g c)
          = .ok config →
        Save w store config c.name = (some e, st) →
        (createCommand w g c ⟨store, []⟩).1 = some e
        ∧ selectedNames (createCommand w g c ⟨store, []⟩).2.2.calls = []) := by
  constructor
  · intro e hnew
    simp [createCommand, Sys.log, hnew, savedNames, selectedNames]
  · intro config e st hnew hsave
    simp [createCommand, Sys.log, hnew, hsave, selectedNames]

/-- Witness of C9: `context save a/b --select` fails in `Save` with the invalid name
error and selects nothing. -/
theorem createCommand_failure_witness :
    (createCommand exampleCtxWorld
        { cfgCtx := "", servers := "", username := "", password := "", creds := "",
          nkey := "", tlsCert := "", tlsKey := "", tlsCA := "" }
        { json := false, activate := true, description := "", name := "a/b", force := false }
        ⟨emptyStore, []⟩).1 = some (.invalidName "a/b")
    ∧ selectedNames (createCommand exampleCtxWorld
        { cfgCtx := "", servers := "", username := "", password := "", creds := "",
          nkey := "", tlsCert := "", tlsKey := "", tlsCA := "" }
        { json := false, activate := true, description := "", name := "a/b", force := false }
        ⟨emptyStore, []⟩).2.2.calls = [] :=
  (createCommand_failure exampleCtxWorld
    { cfgCtx := "", servers := "", username := "", password := "", creds := "",
      nkey := "", tlsCert := "", tlsKey := "", tlsCA := "" }
    { json := false, activate := true, description := "", name := "a/b", force := false }
    emptyStore).2 (emptyContext exampleCtxWorld) (.invalidName "a/b") emptyStore
    (by simp [New, baseName, Validate, hasDotDot, loadTarget, IsKnown, KnownContexts,
      createOptions, CtxOption.apply, exampleCtxWorld, emptyStore])
    (by simp [Save, Validate, hasDotDot, exampleCtxWorld])

/-- C10: `removeCommand` calls `natscontext.DeleteContext(c.name)` if and only if the
force flag is set or the confirmation prompt returned true without error, and never
deletes anything else; with force set the prompt is not asked; a declined prompt
returns `nil` without deleting; a failed prompt returns an error without deleting. -/
theorem removeCommand_deletes_iff (w : CtxWorld) (c : ctxCommand) (store : Store) :
    (deletedNames (removeCommand w c ⟨store, []⟩).2.2.calls = [c.name]
      ↔ (c.force = true
          ∨ w.askConfirmation "Really delete context %q" c.name false = .ok true))
    ∧ (deletedNames (removeCommand w c ⟨store, []⟩).2.2.calls = [c.name]
        ∨ deletedNames (removeCommand w c ⟨store, []⟩).2.2.calls = [])
    ∧ (c.force = true → promptCount (removeCommand w c ⟨store, []⟩).2.2.calls = 0)
    ∧ (c.force = false → promptCount (removeCommand w c ⟨store, []⟩).2.2.calls = 1)
    ∧ (c.force = false →
        w.askConfirmation "Really delete context %q" c.name false = .ok false →
        (removeCommand w c ⟨store, []⟩).1 = none
        ∧ deletedNames (removeCommand w c ⟨store, []⟩).2.2.calls = []
        ∧ (removeCommand w c ⟨store, []⟩).2.2.store = store)
    ∧ (c.force = false → ∀ err,
        w.askConfirmation "Really delete context %q" c.name false = .error err →
        (removeCommand w c ⟨store, []⟩).1
          = some (.errorf ("could not obtain confirmation: " ++ err.Error))
        ∧ deletedNames (removeCommand w c ⟨store, []⟩).2.2.calls = []
        ∧ (removeCommand w c ⟨store, []⟩).2.2.store = store) := by
  by_cases hf : c.force = true
  · simp [removeCommand, hf, deletedNames, promptCount]
  · have hf2 : c.force = false := by simpa using hf
    cases hask : w.askConfirmation "Really delete context %q" c.name false with
    | error err => simp [removeCommand, hf2, hask, Sys.log, deletedNames, promptCount]
    | ok ok =>
      cases ok <;> simp [removeCommand, hf2, hask, Sys.log, deletedNames, promptCount]

/-- Witness of C10: `context rm gotest` with a declined prompt returns `nil` and
deletes nothing. -/
theorem removeCommand_deletes_iff_witness :
    (removeCommand { exampleCtxWorld with askConfirmation := fun _ _ _ => .ok false }
        { json := false, activate := false, description := "", name := "gotest", force := false }
        ⟨{ files := [("gotest", emptyContext exampleCtxWorld)], selected := "gotest" }, []⟩).2.2.store
      = { files := [("gotest", emptyContext exampleCtxWorld)], selected := "gotest" } :=
  ((removeCommand_deletes_iff { exampleCtxWorld with askConfirmation := fun _ _ _ => .ok false }
    { json := false, activate := false, description := "", name := "gotest", force := false }
    { files := [("gotest", emptyContext exampleCtxWorld)], selected := "gotest" }).2.2.2.2.1
      rfl rfl).2.2

end Jetstream
